import Mathlib

/-!
Verification of the magicguard signature-matching and validation engine.

The definitions below are a shallow embedding of the Python modules
`magicguard/core/readers.py`, `magicguard/core/database.py` and
`magicguard/core/validator.py`.  Bytes are modelled as `Nat` values below
256, byte strings as `List Nat`, the file system as a partial map from
path strings to entries, and every Python function that can raise is
embedded as a function into `Except PyErr _` whose error constructors
mirror the exception classes of `magicguard/core/exceptions.py`.

External collaborators are modelled by their documented contracts:
the `zipfile` standard library is represented by an abstract `ZipView`
attached to each regular file (not a zip / corrupt enough that opening
aborts / a well-formed archive with a name list), and `hashlib`'s
incremental interface by its contract that the digest after a sequence
of `update` calls is the digest of the concatenation of the fed chunks.
Operating-system error strings (the `str(e)` part of messages) are
abstracted by fixed placeholder texts, since no specified behaviour
depends on them.
-/

namespace MagicGuard

/-! ## Python string helpers -/

/-- Python `str.lower()` restricted to ASCII (all inputs in this code base
are ASCII). -/
def strLower (s : String) : String := String.mk (s.data.map Char.toLower)

/-- Python `str.upper()` restricted to ASCII. -/
def strUpper (s : String) : String := String.mk (s.data.map Char.toUpper)

/-- Python `str.lstrip(".")`: remove every leading dot. -/
def stripLeadingDots (s : String) : String :=
  String.mk (s.data.dropWhile (fun c => c == '.'))

/-- Python `str.replace(" ", "")`: remove every space character. -/
def removeSpaces (s : String) : String :=
  String.mk (s.data.filter (fun c => c != ' '))

/-- Python `pathlib.PurePath.name` for POSIX paths without a trailing
slash: the characters after the last `/`. -/
def pyName (p : String) : String :=
  String.mk ((p.data.reverse.takeWhile (fun c => c != '/')).reverse)

/-- Python `pathlib.PurePath.suffix`: `name[i:]` where `i` is the index of
the last dot, provided `0 < i < len(name) - 1`, else the empty string. -/
def pySuffix (name : String) : String :=
  let cs := name.data
  match (cs.reverse.findIdx? (fun c => c == '.')).map
      (fun j => cs.length - 1 - j) with
  | some i => if 0 < i ∧ i < cs.length - 1 then String.mk (cs.drop i) else ""
  | none => ""

/-! ## Hex encoding and decoding -/

/-- Value of one hexadecimal digit character, `none` when the character is
not a hex digit. -/
def hexDigitVal (c : Char) : Option Nat :=
  if '0' ≤ c ∧ c ≤ '9' then some (c.toNat - '0'.toNat)
  else if 'a' ≤ c ∧ c ≤ 'f' then some (c.toNat - 'a'.toNat + 10)
  else if 'A' ≤ c ∧ c ≤ 'F' then some (c.toNat - 'A'.toNat + 10)
  else none

/-- Decode a list of hex-digit characters, two per byte, as Python
`bytes.fromhex` does on a string that contains no whitespace: an odd
number of digits or a non-hex character raises `ValueError`, modelled by
`none`.  `bytesFromHexChars [] = some []` just as `bytes.fromhex("")`
is `b""`. -/
def bytesFromHexChars : List Char → Option (List Nat)
  | [] => some []
  | [_] => none
  | c1 :: c2 :: rest =>
    match hexDigitVal c1, hexDigitVal c2, bytesFromHexChars rest with
    | some h, some l, some bs => some ((16 * h + l) :: bs)
    | _, _, _ => none

/-- Python `bytes.fromhex` on a whitespace-free hex string. -/
def bytesFromHex (s : String) : Option (List Nat) := bytesFromHexChars s.data

/-- Lower-case hex digit character for a value below 16. -/
def hexCharLower (n : Nat) : Char :=
  match n with
  | 0 => '0' | 1 => '1' | 2 => '2' | 3 => '3' | 4 => '4'
  | 5 => '5' | 6 => '6' | 7 => '7' | 8 => '8' | 9 => '9'
  | 10 => 'a' | 11 => 'b' | 12 => 'c' | 13 => 'd' | 14 => 'e'
  | _ => 'f'

/-- Upper-case hex digit character for a value below 16. -/
def hexCharUpper (n : Nat) : Char :=
  match n with
  | 0 => '0' | 1 => '1' | 2 => '2' | 3 => '3' | 4 => '4'
  | 5 => '5' | 6 => '6' | 7 => '7' | 8 => '8' | 9 => '9'
  | 10 => 'A' | 11 => 'B' | 12 => 'C' | 13 => 'D' | 14 => 'E'
  | _ => 'F'

/-- The two lower-case hex characters of one byte. -/
def byteHexLower (b : Nat) : List Char :=
  [hexCharLower (b / 16 % 16), hexCharLower (b % 16)]

/-- The two upper-case hex characters of one byte. -/
def byteHexUpper (b : Nat) : List Char :=
  [hexCharUpper (b / 16 % 16), hexCharUpper (b % 16)]

/-- Python `some_bytes.hex().upper()`, as used in diagnostic messages. -/
def bytesToHexUpper (bs : List Nat) : String :=
  String.mk (bs.flatMap byteHexUpper)

/-! ## Error kinds

One constructor per concrete exception class of
`magicguard/core/exceptions.py` that the embedded code can raise, each
carrying the raised message string. -/

inductive PyErr where
  | fileReadError (msg : String)
  | validationError (msg : String)
  | signatureNotFoundError (msg : String)
  | databaseError (msg : String)
  | invalidSignatureError (msg : String)
deriving DecidableEq, Repr

/-- Decidable equality of embedded call results. -/
instance exceptDecEq {ε α : Type} [DecidableEq ε] [DecidableEq α] :
    DecidableEq (Except ε α) := fun a b =>
  match a, b with
  | .ok x, .ok y => decidable_of_iff (x = y) (by simp)
  | .error e, .error f => decidable_of_iff (e = f) (by simp)
  | .ok _, .error _ => isFalse (by simp)
  | .error _, .ok _ => isFalse (by simp)

/-! ## File-system model -/

/-- Abstract view of a file through the `zipfile` standard library:
`notZip` when `zipfile.is_zipfile` is false; `corrupt` when
`is_zipfile` passes but fully opening the archive raises
`zipfile.BadZipFile`; `archive names` when `zipfile.ZipFile` opens and
`namelist()` returns `names`. -/
inductive ZipView where
  | notZip
  | corrupt
  | archive (names : List String)
deriving DecidableEq, Repr

/-- A file-system entry: a readable regular file with its byte content
and its `zipfile` view, a directory, or a regular file whose opening
fails with an `OSError` (e.g. permission denied), with its `stat` size. -/
inductive Entry where
  | regular (content : List Nat) (zip : ZipView)
  | directory
  | unreadable (sz : Nat)
deriving DecidableEq, Repr

/-- The file system: a partial map from path strings to entries.
`Path.exists()` is `(fs p).isSome`. -/
def FileSystem := String → Option Entry

/-- Python `Path.is_file()`: true for regular files (readable or not). -/
def Entry.is_file : Entry → Bool
  | .regular _ _ => true
  | .directory => false
  | .unreadable _ => true

/-- Python `Path.stat().st_size` (never consulted for directories by the
embedded code, which checks `is_file` first). -/
def Entry.st_size : Entry → Nat
  | .regular c _ => c.length
  | .directory => 0
  | .unreadable sz => sz

/-- Placeholder for the operating-system detail text `str(e)` of an
`OSError`; no specified behaviour depends on its contents. -/
def osErrorDetail : String := "(os error)"

/-! ## readers.py -/

/-- `SimpleReader.SIMPLE_FILE_TYPES` (readers.py lines 32-37). -/
def SIMPLE_FILE_TYPES : List String :=
  ["pdf", "png", "jpg", "jpeg", "gif", "bmp", "ico", "webp",
   "mp3", "mp4", "avi", "mkv", "wav", "flac",
   "exe", "dll", "elf", "tar", "gz", "rar", "7z",
   "xml", "html", "json", "sqlite", "db"]

/-- `ZipBasedReader.OFFICE_FILE_STRUCTURES` (readers.py lines 123-127). -/
def OFFICE_FILE_STRUCTURES : List (String × List String) :=
  [("docx", ["[Content_Types].xml", "word/document.xml"]),
   ("xlsx", ["[Content_Types].xml", "xl/workbook.xml"]),
   ("pptx", ["[Content_Types].xml", "ppt/presentation.xml"])]

/-- The three reader strategy classes of readers.py. -/
inductive Reader where
  | zipBased
  | plainZip
  | simple
deriving DecidableEq, Repr

/-- `supports_file_type` of each reader class: `SimpleReader` tests
membership in `SIMPLE_FILE_TYPES`, `ZipBasedReader` tests membership in
`OFFICE_FILE_STRUCTURES`, `PlainZipReader` tests equality with
`"zip"`; each lowercases its argument first. -/
def Reader.supports_file_type : Reader → String → Bool
  | .simple, extension => SIMPLE_FILE_TYPES.contains (strLower extension)
  | .zipBased, extension =>
      (List.lookup (strLower extension) OFFICE_FILE_STRUCTURES).isSome
  | .plainZip, extension => strLower extension == "zip"

/-- `read_signature(file_path, length, offset)`, identical in all three
reader classes: open the file, `seek(offset)`, `read(length)`; any
`IOError` (missing file, directory, unreadable file, negative seek
offset) is re-raised as `FileReadError`. -/
def read_signature (fs : FileSystem) (file_path : String) (length : Nat)
    (offset : Int) : Except PyErr (List Nat) :=
  match fs file_path with
  | some (.regular content _) =>
    if offset < 0 then
      .error (.fileReadError
        ("Failed to read file \x27" ++ file_path ++ "\x27: " ++ osErrorDetail))
    else
      .ok ((content.drop offset.toNat).take length)
  | _ =>
    .error (.fileReadError
      ("Failed to read file \x27" ++ file_path ++ "\x27: " ++ osErrorDetail))

/-- Result of `zipfile.is_zipfile` on a readable regular file. -/
def ZipView.is_zipfile : ZipView → Bool
  | .notZip => false
  | .corrupt => true
  | .archive _ => true

/-- `validate_structure(file_path, extension)` of each reader class.

`SimpleReader`: always true.

`ZipBasedReader`: lowercases the extension; returns false when it is not
an Office type; returns false when `is_zipfile` is false; opens the
archive and returns true exactly when every required internal file is in
`namelist()`; `BadZipFile` while opening and `IOError` are re-raised as
`FileReadError`.

`PlainZipReader`: returns the `is_zipfile` result; `IOError` is
re-raised as `FileReadError`. -/
def Reader.validate_structure (r : Reader) (fs : FileSystem)
    (file_path extension : String) : Except PyErr Bool :=
  match r with
  | .simple => .ok true
  | .plainZip =>
    match fs file_path with
    | some (.regular _ zv) => .ok zv.is_zipfile
    | _ =>
      .error (.fileReadError
        ("Failed to access file \x27" ++ file_path ++ "\x27: " ++ osErrorDetail))
  | .zipBased =>
    let ext := strLower extension
    match List.lookup ext OFFICE_FILE_STRUCTURES with
    | none => .ok false
    | some required_files =>
      match fs file_path with
      | some (.regular _ zv) =>
        match zv with
        | .notZip => .ok false
        | .corrupt =>
          .error (.fileReadError
            ("Corrupted ZIP file \x27" ++ file_path ++ "\x27: " ++ osErrorDetail))
        | .archive names =>
          .ok (required_files.all (fun f => names.contains f))
      | _ =>
        .error (.fileReadError
          ("Failed to access file \x27" ++ file_path ++ "\x27: " ++ osErrorDetail))

/-- `ReaderFactory._readers` (readers.py lines 354-358): the fixed
strategy order. -/
def factoryReaders : List Reader := [.zipBased, .plainZip, .simple]

/-- The `for reader in self._readers` loop of `ReaderFactory.get_reader`:
first reader whose `supports_file_type` holds; when none does, the
fallback `self._readers[-1]`, which is the `SimpleReader`. -/
def getReaderLoop (extension : String) : List Reader → Reader
  | [] => .simple
  | r :: rs =>
    if r.supports_file_type extension then r else getReaderLoop extension rs

/-- `ReaderFactory.get_reader(extension)` (readers.py lines 360-383). -/
def get_reader (extension : String) : Reader :=
  getReaderLoop (strLower extension) factoryReaders

/-! ## database.py

The SQLite table `signatures` is modelled as a list of rows in rowid
(insertion) order, which is the order an unordered `SELECT` returns.
The `UNIQUE(extension, magic_bytes, offset)` constraint of the schema is
enforced in `add_signature` below exactly where the source catches
`sqlite3.IntegrityError`. -/

/-- One row of the `signatures` table (the `id` and `created_at` columns
never influence behaviour and are omitted). -/
structure SigRecord where
  extension : String
  magic_bytes : String
  offset : Int
  description : Option String
  mime_type : Option String
deriving DecidableEq, Repr

/-- The signature store: the rows of the `signatures` table in insertion
order. -/
abbrev DB := List SigRecord

/-- `Database._normalize_extension`: lowercase, strip leading dots. -/
def normalize_extension (extension : String) : String :=
  stripLeadingDots (strLower extension)

/-- `Database._normalize_magic_bytes`: uppercase, remove spaces. -/
def normalize_magic_bytes (magic_bytes : String) : String :=
  removeSpaces (strUpper magic_bytes)

/-- `Database._validate_signature_input`: normalize both inputs, then
raise `DatabaseError` when the normalized extension is empty, the
normalized pattern is empty, or `bytes.fromhex` rejects the normalized
pattern; on success return the normalized pair. -/
def validate_signature_input (extension magic_bytes : String) :
    Except PyErr (String × String) :=
  let norm_ext := normalize_extension extension
  let norm_hex := normalize_magic_bytes magic_bytes
  if norm_ext = "" then
    .error (.databaseError "Extension cannot be empty")
  else if norm_hex = "" then
    .error (.databaseError "Magic bytes cannot be empty")
  else
    match bytesFromHex norm_hex with
    | none =>
      .error (.databaseError
        ("Invalid hex string for magic bytes: \x27" ++ magic_bytes ++ "\x27"))
    | some _ => .ok (norm_ext, norm_hex)

/-- `Database.get_signatures(extension)`: normalize the extension, select
the `(magic_bytes, offset)` pairs of its rows, raise
`SignatureNotFoundError` when there are none. -/
def get_signatures (db : DB) (extension : String) :
    Except PyErr (List (String × Int)) :=
  let norm_ext := normalize_extension extension
  let results :=
    (db.filter (fun r => r.extension == norm_ext)).map
      (fun r => (r.magic_bytes, r.offset))
  if results.isEmpty then
    .error (.signatureNotFoundError
      ("No signature found for extension \x27." ++ norm_ext ++ "\x27"))
  else .ok results

/-- The message of the `DatabaseError` raised when the `UNIQUE` constraint
rejects an insertion. -/
def duplicateMsg (norm_ext norm_hex : String) (offset : Int) : String :=
  "Signature for \x27." ++ norm_ext ++ "\x27 with magic bytes " ++ norm_hex ++
    " at offset " ++ toString offset ++ " already exists"

/-- `Database.add_signature`: validate and normalize the input, insert the
row; an insertion whose normalized `(extension, magic_bytes, offset)`
triple is already present violates the schema's `UNIQUE` constraint, and
the resulting `sqlite3.IntegrityError` is re-raised as `DatabaseError`
(leaving the table unchanged).  On success the new row is appended and
committed. -/
def add_signature (db : DB) (extension magic_bytes : String)
    (offset : Int) (description mime_type : Option String) :
    Except PyErr DB :=
  match validate_signature_input extension magic_bytes with
  | .error e => .error e
  | .ok (norm_ext, norm_hex) =>
    if db.any (fun r =>
        r.extension == norm_ext && r.magic_bytes == norm_hex &&
        r.offset == offset) then
      .error (.databaseError (duplicateMsg norm_ext norm_hex offset))
    else
      .ok (db ++ [⟨norm_ext, norm_hex, offset, description, mime_type⟩])

/-- The uniqueness invariant of the `signatures` table: no two rows share
the same `(extension, magic_bytes, offset)` triple. -/
def UniqueTriples (db : DB) : Prop :=
  List.Pairwise (fun r s : SigRecord =>
    ¬(r.extension = s.extension ∧ r.magic_bytes = s.magic_bytes ∧
      r.offset = s.offset)) db

/-- The arguments of one `add_signature` call. -/
structure AddCall where
  extension : String
  magic_bytes : String
  offset : Int
  description : Option String
  mime_type : Option String
deriving DecidableEq, Repr

/-- Perform one `add_signature` call against the store; a call that
raises leaves the store unchanged. -/
def applyCall (db : DB) (c : AddCall) : DB :=
  match add_signature db c.extension c.magic_bytes c.offset c.description
      c.mime_type with
  | .ok db2 => db2
  | .error _ => db

/-- Perform a sequence of `add_signature` calls against the store. -/
def runCalls (db : DB) (cs : List AddCall) : DB := cs.foldl applyCall db

/-! ## validator.py -/

/-- `MAX_FILE_SIZE` (validator.py line 23): 100 MiB. -/
def MAX_FILE_SIZE : Nat := 104857600

/-- `FileValidator._check_signature`: decode the stored hex pattern
(raising `InvalidSignatureError` when `bytes.fromhex` rejects it), read
as many bytes as the pattern has from the file at the record's offset,
and compare for equality. -/
def check_signature (fs : FileSystem) (file_path magic_hex : String)
    (offset : Int) : Except PyErr Bool :=
  match bytesFromHex magic_hex with
  | none =>
    .error (.invalidSignatureError
      ("Invalid magic bytes format: \x27" ++ magic_hex ++
        "\x27 (must be hex string)"))
  | some expected_bytes =>
    match read_signature fs file_path expected_bytes.length offset with
    | .error e => .error e
    | .ok actual_bytes => .ok (actual_bytes == expected_bytes)

/-- The `ValidationError` message for a magic-byte match whose structural
validation failed (validator.py lines 148-151). -/
def structureFailMsg (file_path extension : String) : String :=
  "File \x27" ++ file_path ++ "\x27 has correct magic bytes for \x27." ++
    extension ++ "\x27 but failed internal structure validation"

/-- The `ValidationError` message raised when no signature record matched
(validator.py lines 157-160): it reports the hex pattern of the last
compared record and the upper-cased hex of the bytes read at offset 0. -/
def mismatchMsg (file_path extension magic_hex : String)
    (actual_bytes : List Nat) : String :=
  "File \x27" ++ file_path ++ "\x27 has extension \x27." ++ extension ++
    "\x27 but magic bytes don\x27t match. Expected: " ++ magic_hex ++
    ", Found: " ++ bytesToHexUpper actual_bytes

/-- The `for magic_hex, offset in signatures` loop of
`FileValidator.validate` (lines 139-162), together with the fall-through
after it.  `last_hex` is the current value of the Python loop variable
`magic_hex`, consulted by the fall-through error message; `validate`
only reaches the loop with a non-empty record list, so its initial value
is never used. -/
def tryRecords (fs : FileSystem) (file_path extension : String)
    (reader : Reader) (last_hex : String) :
    List (String × Int) → Except PyErr Bool
  | [] =>
    match read_signature fs file_path 8 0 with
    | .error e => .error e
    | .ok actual_bytes =>
      .error (.validationError
        (mismatchMsg file_path extension last_hex actual_bytes))
  | (magic_hex, offset) :: rest =>
    match check_signature fs file_path magic_hex offset with
    | .error e => .error e
    | .ok false => tryRecords fs file_path extension reader magic_hex rest
    | .ok true =>
      match reader.validate_structure fs file_path extension with
      | .error e => .error e
      | .ok true => .ok true
      | .ok false =>
        .error (.validationError (structureFailMsg file_path extension))

/-- The extension extraction of validator.py line 123:
`path.suffix.lstrip(".").lower()`. -/
def fileExtension (file_path : String) : String :=
  strLower (stripLeadingDots (pySuffix (pyName file_path)))

/-- `FileValidator.validate(file_path)` (validator.py lines 78-162):
existence and regular-file checks, size bound, extension extraction,
reader selection, signature lookup, then the record loop. -/
def validate (fs : FileSystem) (db : DB) (file_path : String) :
    Except PyErr Bool :=
  match fs file_path with
  | none =>
    .error (.fileReadError ("File not found: \x27" ++ file_path ++ "\x27"))
  | some entry =>
    if !entry.is_file then
      .error (.fileReadError
        ("Path is not a file: \x27" ++ file_path ++ "\x27"))
    else if entry.st_size > MAX_FILE_SIZE then
      .error (.fileReadError
        ("File too large: " ++ toString entry.st_size ++ " bytes (max: " ++
          toString MAX_FILE_SIZE ++ ")"))
    else
      let extension := fileExtension file_path
      if extension = "" then
        .error (.validationError
          ("File has no extension: \x27" ++ file_path ++ "\x27"))
      else
        let reader := get_reader extension
        match get_signatures db extension with
        | .error e => .error e
        | .ok signatures =>
          tryRecords fs file_path extension reader "" signatures

/-! ## SHA-256 (the `hashlib.sha256` collaborator)

A direct implementation of FIPS 180-4 SHA-256 on `Nat`, words reduced
modulo `2 ^ 32` explicitly.  `get_file_hash` below uses it through the
`hashlib` contract: the digest after a sequence of `update` calls is the
digest of the concatenation of the fed chunks. -/

/-- Reduce to a 32-bit word. -/
def w32 (n : Nat) : Nat := n % 4294967296

/-- Right rotation of a 32-bit word by `n` bits. -/
def rotr (n w : Nat) : Nat := w32 ((w >>> n) ||| (w <<< (32 - n)))

/-- Bitwise complement of a 32-bit word. -/
def bnot32 (x : Nat) : Nat := 4294967295 - x

/-- The 64 SHA-256 round constants of FIPS 180-4, written in decimal. -/
def K256 : List Nat :=
  [1116352408, 1899447441, 3049323471, 3921009573,
   961987163, 1508970993, 2453635748, 2870763221,
   3624381080, 310598401, 607225278, 1426881987,
   1925078388, 2162078206, 2614888103, 3248222580,
   3835390401, 4022224774, 264347078, 604807628,
   770255983, 1249150122, 1555081692, 1996064986,
   2554220882, 2821834349, 2952996808, 3210313671,
   3336571891, 3584528711, 113926993, 338241895,
   666307205, 773529912, 1294757372, 1396182291,
   1695183700, 1986661051, 2177026350, 2456956037,
   2730485921, 2820302411, 3259730800, 3345764771,
   3516065817, 3600352804, 4094571909, 275423344,
   430227734, 506948616, 659060556, 883997877,
   958139571, 1322822218, 1537002063, 1747873779,
   1955562222, 2024104815, 2227730452, 2361852424,
   2428436474, 2756734187, 3204031479, 3329325298]

/-- The eight working variables of the compression function. -/
structure H8 where
  a : Nat
  b : Nat
  c : Nat
  d : Nat
  e : Nat
  f : Nat
  g : Nat
  h : Nat
deriving DecidableEq, Repr

/-- The SHA-256 initial hash value of FIPS 180-4, written in decimal. -/
def initH : H8 :=
  ⟨1779033703, 3144134277, 1013904242, 2773480762,
   1359893119, 2600822924, 528734635, 1541459225⟩

/-- Extend the 16 block words by `n` further schedule words. -/
def extendW : Nat → List Nat → List Nat
  | 0, ws => ws
  | n + 1, ws =>
    let i := ws.length
    let w15 := ws.getD (i - 15) 0
    let w2 := ws.getD (i - 2) 0
    let s0 := (rotr 7 w15) ^^^ (rotr 18 w15) ^^^ (w15 >>> 3)
    let s1 := (rotr 17 w2) ^^^ (rotr 19 w2) ^^^ (w2 >>> 10)
    extendW n (ws ++ [w32 (ws.getD (i - 16) 0 + s0 + ws.getD (i - 7) 0 + s1)])

/-- One SHA-256 compression round. -/
def shaRound (st : H8) (ki wi : Nat) : H8 :=
  let S1 := rotr 6 st.e ^^^ rotr 11 st.e ^^^ rotr 25 st.e
  let ch := (st.e &&& st.f) ^^^ (bnot32 st.e &&& st.g)
  let temp1 := w32 (st.h + S1 + ch + ki + wi)
  let S0 := rotr 2 st.a ^^^ rotr 13 st.a ^^^ rotr 22 st.a
  let maj := (st.a &&& st.b) ^^^ (st.a &&& st.c) ^^^ (st.b &&& st.c)
  let temp2 := w32 (S0 + maj)
  ⟨w32 (temp1 + temp2), st.a, st.b, st.c, w32 (st.d + temp1),
   st.e, st.f, st.g⟩

/-- Compress one 16-word block into the running hash value. -/
def compressBlock (hv : H8) (block : List Nat) : H8 :=
  let ws := extendW 48 block
  let st := (K256.zip ws).foldl (fun s kw => shaRound s kw.1 kw.2) hv
  ⟨w32 (hv.a + st.a), w32 (hv.b + st.b), w32 (hv.c + st.c),
   w32 (hv.d + st.d), w32 (hv.e + st.e), w32 (hv.f + st.f),
   w32 (hv.g + st.g), w32 (hv.h + st.h)⟩

/-- Big-endian bytes of a 64-bit length field. -/
def toBE64 (n : Nat) : List Nat :=
  [n >>> 56 % 256, n >>> 48 % 256, n >>> 40 % 256, n >>> 32 % 256,
   n >>> 24 % 256, n >>> 16 % 256, n >>> 8 % 256, n % 256]

/-- SHA-256 padding: a `0x80` byte, zeros to 56 mod 64, then the bit
length as a 64-bit big-endian field. -/
def padMessage (msg : List Nat) : List Nat :=
  let L := msg.length
  let zeros := (64 - ((L + 9) % 64)) % 64
  msg ++ [128] ++ List.replicate zeros 0 ++ toBE64 (8 * L)

/-- Split a byte list into successive `sz`-byte chunks, structurally
recursive on a fuel argument so that it evaluates by reduction.  When
`sz` is positive and the fuel is at least the list length, the fuel
never runs out; the fuel-exhausted fallback emits the remainder as one
chunk, which keeps the concatenation property unconditional. -/
def chunksAux (sz : Nat) : Nat → List Nat → List (List Nat)
  | _, [] => []
  | 0, c => [c]
  | fuel + 1, c => c.take sz :: chunksAux sz fuel (c.drop sz)

/-- Split a byte list into successive 64-byte blocks. -/
def toBlocks (c : List Nat) : List (List Nat) := chunksAux 64 c.length c

/-- Pack four bytes into one big-endian 32-bit word, over a 64-byte
block. -/
def wordsOfBlock : List Nat → List Nat
  | b0 :: b1 :: b2 :: b3 :: rest =>
    (((b0 * 256 + b1) * 256 + b2) * 256 + b3) :: wordsOfBlock rest
  | _ => []

/-- The eight final hash words of a byte message. -/
def sha256words (msg : List Nat) : H8 :=
  ((toBlocks (padMessage msg)).map wordsOfBlock).foldl compressBlock initH

/-- Big-endian bytes of one 32-bit word. -/
def wordBE (w : Nat) : List Nat :=
  [w >>> 24 % 256, w >>> 16 % 256, w >>> 8 % 256, w % 256]

/-- The 32-byte SHA-256 digest of a byte message. -/
def sha256bytes (msg : List Nat) : List Nat :=
  let hv := sha256words msg
  wordBE hv.a ++ wordBE hv.b ++ wordBE hv.c ++ wordBE hv.d ++
    wordBE hv.e ++ wordBE hv.f ++ wordBE hv.g ++ wordBE hv.h

/-- Python `hashlib.sha256(msg).hexdigest()`: the digest bytes in
lower-case hex. -/
def sha256hex (msg : List Nat) : String :=
  String.mk ((sha256bytes msg).flatMap byteHexLower)

/-! ## FileValidator.get_file_hash -/

/-- The successive results of `f.read(8192)` until the empty chunk that
ends the `iter(lambda: f.read(8192), b'')` loop. -/
def readChunks (c : List Nat) : List (List Nat) := chunksAux 8192 c.length c

/-- State of a `hashlib.sha256()` object after a sequence of `update`
calls, by the hashlib contract: the bytes fed so far, whose digest
`hexdigest()` returns. -/
def sha256StreamHex (chunks : List (List Nat)) : String :=
  sha256hex chunks.flatten

/-- `FileValidator.get_file_hash(file_path)` (validator.py lines
206-234): stream the file in 8192-byte chunks through a `hashlib.sha256`
object and return its `hexdigest()`; any `IOError` while opening or
reading is re-raised as `FileReadError`. -/
def get_file_hash (fs : FileSystem) (file_path : String) :
    Except PyErr String :=
  match fs file_path with
  | some (.regular content _) => .ok (sha256StreamHex (readChunks content))
  | _ =>
    .error (.fileReadError
      ("Failed to hash file \x27" ++ file_path ++ "\x27: " ++ osErrorDetail))

/-! ## Concrete fixtures for witnesses -/

/-- First bytes of a real PDF file (`%PDF-1.4`). -/
def samplePdfContent : List Nat := [0x25, 0x50, 0x44, 0x46, 0x2D, 0x31, 0x2E, 0x34]

/-- First bytes of a real PNG file. -/
def samplePngContent : List Nat :=
  [0x89, 0x50, 0x4E, 0x47, 0x0D, 0x0A, 0x1A, 0x0A, 0x00, 0x01]

/-- First bytes of a ZIP local-file header. -/
def zipHeader : List Nat := [0x50, 0x4B, 0x03, 0x04, 0x14, 0x00]

/-- A store with two records for `pdf`; only the second matches a real
PDF file. -/
def dbTwoPdf : DB :=
  [⟨"pdf", "FFFF", 0, none, none⟩, ⟨"pdf", "25504446", 0, none, none⟩]

/-- The spoofed-file scenario store: one `pdf` record, one `png` record. -/
def dbPdfPng : DB :=
  [⟨"pdf", "25504446", 0, none, none⟩, ⟨"png", "89504E47", 0, none, none⟩]

/-- A store with the `docx` ZIP signature record. -/
def dbDocx : DB := [⟨"docx", "504B0304", 0, none, none⟩]

/-- Internal listing of a well-formed `docx` archive. -/
def docxNames : List String :=
  ["[Content_Types].xml", "word/document.xml", "word/media/image1.png"]

/-- The sample file system used by the witnesses. -/
def sampleFS : FileSystem := fun p =>
  if p = "a.pdf" then some (.regular samplePdfContent .notZip)
  else if p = "fake.pdf" then some (.regular samplePngContent .notZip)
  else if p = "good.docx" then some (.regular zipHeader (.archive docxNames))
  else if p = "fake.docx" then some (.regular zipHeader (.archive ["mimetype"]))
  else if p = "notzip.docx" then some (.regular samplePngContent .notZip)
  else if p = "corrupt.docx" then some (.regular zipHeader .corrupt)
  else if p = "somedir.pdf" then some .directory
  else if p = "big.pdf" then some (.unreadable 104857601)
  else if p = "noext" then some (.regular samplePdfContent .notZip)
  else if p = "locked.pdf" then some (.unreadable 20)
  else if p = "x.xyz" then some (.regular samplePdfContent .notZip)
  else none

/-! ## Helper lemmas -/

/-- The factory loop is first-match search over the strategy list, with
the `SimpleReader` fallback. -/
theorem getReaderLoop_eq_find (e : String) (l : List Reader) :
    getReaderLoop e l =
      (l.find? (fun r => r.supports_file_type e)).getD .simple := by
  induction l with
  | nil => rfl
  | cons r rs ih =>
    by_cases h : r.supports_file_type e
    · simp [getReaderLoop, List.find?, h]
    · simp [getReaderLoop, List.find?, h, ih]

/-- The record loop never produces the value `false`. -/
theorem tryRecords_ne_ok_false (fs : FileSystem) (fp ext : String)
    (rd : Reader) (lh : String) (sigs : List (String × Int)) :
    tryRecords fs fp ext rd lh sigs ≠ .ok false := by
  induction sigs generalizing lh with
  | nil =>
    simp only [tryRecords]
    cases read_signature fs fp 8 0 <;> simp
  | cons p rest ih =>
    obtain ⟨mh, off⟩ := p
    simp only [tryRecords]
    cases hc : check_signature fs fp mh off with
    | error e => simp
    | ok b =>
      cases b with
      | false => exact ih mh
      | true =>
        cases hv : rd.validate_structure fs fp ext with
        | error e => simp
        | ok sb => cases sb <;> simp

/-- When the file passes existence, regular-file and size checks, has a
non-empty extension, and the store lookup succeeds, `validate` is the
record loop. -/
theorem validate_reaches_loop (fs : FileSystem) (db : DB)
    (file_path : String) (entry : Entry) (sigs : List (String × Int))
    (he : fs file_path = some entry) (hf : entry.is_file = true)
    (hs : entry.st_size ≤ MAX_FILE_SIZE)
    (hx : fileExtension file_path ≠ "")
    (hsig : get_signatures db (fileExtension file_path) = .ok sigs) :
    validate fs db file_path =
      tryRecords fs file_path (fileExtension file_path)
        (get_reader (fileExtension file_path)) "" sigs := by
  simp only [validate, he, hf, Bool.not_true, Bool.false_eq_true, if_false,
    if_neg (Nat.not_lt.mpr hs), if_neg hx, hsig]

/-- Skipping a prefix of records that all fail the magic-byte
comparison: the loop continues on the remaining records, with the loop
variable `magic_hex` holding the last skipped pattern. -/
theorem tryRecords_append (fs : FileSystem) (fp ext : String)
    (rd : Reader) (pre l : List (String × Int))
    (hpre : ∀ p ∈ pre, check_signature fs fp p.1 p.2 = .ok false)
    (lh : String) :
    tryRecords fs fp ext rd lh (pre ++ l) =
      tryRecords fs fp ext rd ((pre.getLast?.map Prod.fst).getD lh) l := by
  induction pre generalizing lh with
  | nil => rfl
  | cons p ps ih =>
    obtain ⟨mh, off⟩ := p
    have hp : check_signature fs fp mh off = .ok false :=
      hpre (mh, off) (List.mem_cons_self _ _)
    have hps : ∀ q ∈ ps, check_signature fs fp q.1 q.2 = .ok false :=
      fun q hq => hpre q (List.mem_cons_of_mem _ hq)
    rw [List.cons_append]
    simp only [tryRecords, hp]
    rw [ih hps mh]
    congr 1
    cases ps with
    | nil => rfl
    | cons q qs =>
      have hne : q :: qs ≠ [] := by simp
      obtain ⟨x, hx⟩ := Option.isSome_iff_exists.mp (List.getLast?_isSome.mpr hne)
      simp [hx]

/-- When every record fails the magic-byte comparison, the loop falls
through to the diagnostic `ValidationError`, whose message carries the
hex pattern of the last record and the bytes read at offset 0. -/
theorem tryRecords_allFalse (fs : FileSystem) (fp ext : String)
    (rd : Reader) (sigs : List (String × Int))
    (hall : ∀ p ∈ sigs, check_signature fs fp p.1 p.2 = .ok false)
    (lh : String) :
    tryRecords fs fp ext rd lh sigs =
      match read_signature fs fp 8 0 with
      | .error e => .error e
      | .ok actual_bytes =>
        .error (.validationError
          (mismatchMsg fp ext ((sigs.getLast?.map Prod.fst).getD lh)
            actual_bytes)) := by
  have h := tryRecords_append fs fp ext rd sigs [] hall lh
  rw [List.append_nil] at h
  rw [h]
  rfl

/-! ## Claim theorems -/

/-- Claim C1: for an accessible, regular, size-bounded file whose
extension has registered records, `validate` walks the records in store
order; records before the first exact magic-byte match compare false,
and on the first exact match it invokes `validate_structure` on the
selected reader: `true` there makes `validate` return `true`, `false`
there raises `ValidationError` — in both cases without ever consulting
the remaining records `rest`. -/
theorem spec_C1 (fs : FileSystem) (db : DB) (file_path : String)
    (entry : Entry) (pre rest : List (String × Int)) (mh : String) (off : Int)
    (he : fs file_path = some entry) (hf : entry.is_file = true)
    (hs : entry.st_size ≤ MAX_FILE_SIZE)
    (hx : fileExtension file_path ≠ "")
    (hsig : get_signatures db (fileExtension file_path) =
      .ok (pre ++ (mh, off) :: rest))
    (hpre : ∀ p ∈ pre, check_signature fs file_path p.1 p.2 = .ok false)
    (hmatch : check_signature fs file_path mh off = .ok true) :
    ((get_reader (fileExtension file_path)).validate_structure fs file_path
        (fileExtension file_path) = .ok true →
      validate fs db file_path = .ok true) ∧
    ((get_reader (fileExtension file_path)).validate_structure fs file_path
        (fileExtension file_path) = .ok false →
      validate fs db file_path =
        .error (.validationError
          (structureFailMsg file_path (fileExtension file_path)))) := by
  have hv := validate_reaches_loop fs db file_path entry _ he hf hs hx hsig
  have hskip := tryRecords_append fs file_path (fileExtension file_path)
    (get_reader (fileExtension file_path)) pre ((mh, off) :: rest) hpre ""
  rw [hskip] at hv
  constructor <;> intro hstruct <;> rw [hv] <;>
    simp only [tryRecords, hmatch, hstruct]

/-- Claim C1 witness: a PDF file matching only the second of two `pdf`
records validates to `true`, and a file with correct `docx` magic bytes
but missing internal manifests raises `ValidationError`. -/
theorem spec_C1_witness :
    validate sampleFS dbTwoPdf "a.pdf" = .ok true ∧
    validate sampleFS dbDocx "fake.docx" =
      .error (.validationError (structureFailMsg "fake.docx" "docx")) := by
  constructor
  · exact (spec_C1 sampleFS dbTwoPdf "a.pdf"
      (.regular samplePdfContent .notZip) [("FFFF", 0)] [] "25504446" 0
      rfl rfl (by decide) (by decide) (by decide) (by decide) (by decide)).1
      (by decide)
  · exact (spec_C1 sampleFS dbDocx "fake.docx"
      (.regular zipHeader (.archive ["mimetype"])) [] [] "504B0304" 0
      rfl rfl (by decide) (by decide) (by decide) (by decide) (by decide)).2
      (by decide)

/-- Claim C2: `ReaderFactory.get_reader` is first-match search over the
fixed strategy list `[ZipBasedReader, PlainZipReader, SimpleReader]`
with the `SimpleReader` as fallback; in particular `"docx"` selects the
composite-container reader and never the generic-archive reader, and any
extension no strategy supports gets the flat-binary reader. -/
theorem spec_C2 :
    (∀ extension : String,
      get_reader extension =
        (factoryReaders.find?
          (fun r => r.supports_file_type (strLower extension))).getD
          .simple) ∧
    get_reader "docx" = .zipBased ∧
    get_reader "docx" ≠ .plainZip ∧
    (∀ extension : String,
      Reader.supports_file_type .zipBased (strLower extension) = false →
      Reader.supports_file_type .plainZip (strLower extension) = false →
      Reader.supports_file_type .simple (strLower extension) = false →
      get_reader extension = .simple) := by
  refine ⟨fun e => getReaderLoop_eq_find (strLower e) factoryReaders,
    by decide, by decide, fun e h1 h2 h3 => ?_⟩
  simp [get_reader, factoryReaders, getReaderLoop, h1, h2, h3]

/-- Claim C2 witness: `"docx"` selects the composite-container reader,
and an unsupported extension falls back to the flat-binary reader. -/
theorem spec_C2_witness :
    get_reader "docx" = .zipBased ∧ get_reader "docx" ≠ .plainZip ∧
    get_reader "unknownext" = .simple := by
  exact ⟨spec_C2.2.1, spec_C2.2.2.1,
    spec_C2.2.2.2 "unknownext" (by decide) (by decide) (by decide)⟩

/-- Claim C10: `validate` never produces the value `false`: every
negative outcome is an exception, and its only successful result is
`true`. -/
theorem spec_C10 : ∀ (fs : FileSystem) (db : DB) (file_path : String),
    validate fs db file_path ≠ .ok false := by
  intro fs db fp
  simp only [validate]
  cases hfs : fs fp with
  | none => simp
  | some entry =>
    by_cases hf : entry.is_file
    · simp only [hf, Bool.not_true, Bool.false_eq_true, if_false]
      by_cases hsz : entry.st_size > MAX_FILE_SIZE
      · simp [hsz]
      · simp only [if_neg hsz]
        by_cases hx : fileExtension fp = ""
        · simp [hx]
        · simp only [if_neg hx]
          cases hq : get_signatures db (fileExtension fp) with
          | error e => simp
          | ok sigs =>
            exact tryRecords_ne_ok_false fs fp (fileExtension fp)
              (get_reader (fileExtension fp)) "" sigs
    · simp [hf]

/-- Claim C3: the preconditions of `validate` fire in order — missing
path or non-regular file give `FileReadError`; an oversized file gives
`FileReadError` for every store and every content (hence before any byte
comparison); an empty extension gives `ValidationError`; an extension
with no registered record gives `SignatureNotFoundError`. -/
theorem spec_C3 (fs : FileSystem) (db : DB) (file_path : String) :
    (fs file_path = none →
      validate fs db file_path = .error (.fileReadError
        ("File not found: \x27" ++ file_path ++ "\x27"))) ∧
    (fs file_path = some .directory →
      validate fs db file_path = .error (.fileReadError
        ("Path is not a file: \x27" ++ file_path ++ "\x27"))) ∧
    (∀ entry : Entry, fs file_path = some entry → entry.is_file = true →
      entry.st_size > MAX_FILE_SIZE →
      validate fs db file_path = .error (.fileReadError
        ("File too large: " ++ toString entry.st_size ++ " bytes (max: " ++
          toString MAX_FILE_SIZE ++ ")"))) ∧
    (∀ entry : Entry, fs file_path = some entry → entry.is_file = true →
      entry.st_size ≤ MAX_FILE_SIZE → fileExtension file_path = "" →
      validate fs db file_path = .error (.validationError
        ("File has no extension: \x27" ++ file_path ++ "\x27"))) ∧
    (∀ entry : Entry, fs file_path = some entry → entry.is_file = true →
      entry.st_size ≤ MAX_FILE_SIZE → fileExtension file_path ≠ "" →
      (∀ r ∈ db,
        r.extension ≠ normalize_extension (fileExtension file_path)) →
      validate fs db file_path = .error (.signatureNotFoundError
        ("No signature found for extension \x27." ++
          normalize_extension (fileExtension file_path) ++ "\x27"))) := by
  refine ⟨fun h => by simp [validate, h],
    fun h => by simp [validate, h, Entry.is_file],
    fun entry he hf hsz => ?_, fun entry he hf hsz hx => ?_,
    fun entry he hf hsz hx hno => ?_⟩
  · simp [validate, he, hf, hsz]
  · simp [validate, he, hf, Nat.not_lt.mpr hsz, hx]
  · have hfil : db.filter
        (fun r => r.extension ==
          normalize_extension (fileExtension file_path)) = [] := by
      rw [List.filter_eq_nil_iff]
      intro r hr
      simpa using hno r hr
    simp [validate, he, hf, Nat.not_lt.mpr hsz, hx, get_signatures, hfil]

/-- Claim C3 witness: the five precondition failures on concrete
inputs. -/
theorem spec_C3_witness :
    validate sampleFS dbPdfPng "missing.pdf" =
      .error (.fileReadError "File not found: \x27missing.pdf\x27") ∧
    validate sampleFS dbPdfPng "somedir.pdf" =
      .error (.fileReadError "Path is not a file: \x27somedir.pdf\x27") ∧
    validate sampleFS dbPdfPng "big.pdf" =
      .error (.fileReadError
        "File too large: 104857601 bytes (max: 104857600)") ∧
    validate sampleFS dbPdfPng "noext" =
      .error (.validationError "File has no extension: \x27noext\x27") ∧
    validate sampleFS dbPdfPng "x.xyz" =
      .error (.signatureNotFoundError
        "No signature found for extension \x27.xyz\x27") := by
  refine ⟨(spec_C3 sampleFS dbPdfPng "missing.pdf").1 (by decide),
    (spec_C3 sampleFS dbPdfPng "somedir.pdf").2.1 (by decide),
    (spec_C3 sampleFS dbPdfPng "big.pdf").2.2.1 (.unreadable 104857601)
      (by decide) rfl (by decide),
    (spec_C3 sampleFS dbPdfPng "noext").2.2.2.1
      (.regular samplePdfContent .notZip) (by decide) rfl (by decide)
      (by decide),
    (spec_C3 sampleFS dbPdfPng "x.xyz").2.2.2.2
      (.regular samplePdfContent .notZip) (by decide) rfl (by decide)
      (by decide) (by decide)⟩

/-- Claim C4: on a readable regular file with a composite-container
extension, `ZipBasedReader.validate_structure` returns `false` when the
file is not a well-formed ZIP, returns `true` exactly when every
required internal manifest path is listed in the container (and `false`
otherwise), and raises `FileReadError` exactly when the container is
corrupt enough that opening it aborts. -/
theorem spec_C4 (fs : FileSystem) (file_path extension : String)
    (content : List Nat) (zv : ZipView) (required_files : List String)
    (he : fs file_path = some (.regular content zv))
    (hoff : List.lookup (strLower extension) OFFICE_FILE_STRUCTURES =
      some required_files) :
    (zv = .notZip →
      Reader.validate_structure .zipBased fs file_path extension =
        .ok false) ∧
    (∀ names, zv = .archive names →
      (Reader.validate_structure .zipBased fs file_path extension =
          .ok true ↔ ∀ f ∈ required_files, names.contains f = true) ∧
      (¬ (∀ f ∈ required_files, names.contains f = true) →
        Reader.validate_structure .zipBased fs file_path extension =
          .ok false)) ∧
    (zv = .corrupt →
      Reader.validate_structure .zipBased fs file_path extension =
        .error (.fileReadError ("Corrupted ZIP file \x27" ++ file_path ++
          "\x27: " ++ osErrorDetail))) ∧
    (∀ e, Reader.validate_structure .zipBased fs file_path extension =
        .error e → zv = .corrupt) := by
  refine ⟨fun hz => by simp [Reader.validate_structure, hoff, he, hz],
    fun names hz => ?_,
    fun hz => by simp [Reader.validate_structure, hoff, he, hz],
    fun e herr => ?_⟩
  · subst hz
    constructor
    · simp [Reader.validate_structure, hoff, he, List.all_eq_true]
    · intro hmiss
      simp [Reader.validate_structure, hoff, he]
      simpa using hmiss
  · cases zv with
    | notZip => simp [Reader.validate_structure, hoff, he] at herr
    | corrupt => rfl
    | archive names => simp [Reader.validate_structure, hoff, he] at herr

/-- Claim C4 witness: a `docx` with all manifests validates, one missing
them fails with `false`, a non-ZIP fails with `false`, and a corrupt
container raises `FileReadError`. -/
theorem spec_C4_witness :
    Reader.validate_structure .zipBased sampleFS "good.docx" "docx" =
      .ok true ∧
    Reader.validate_structure .zipBased sampleFS "fake.docx" "docx" =
      .ok false ∧
    Reader.validate_structure .zipBased sampleFS "notzip.docx" "docx" =
      .ok false ∧
    Reader.validate_structure .zipBased sampleFS "corrupt.docx" "docx" =
      .error (.fileReadError
        ("Corrupted ZIP file \x27corrupt.docx\x27: " ++ osErrorDetail)) := by
  refine ⟨?_, ?_, ?_, ?_⟩
  · exact ((spec_C4 sampleFS "good.docx" "docx" zipHeader
      (.archive docxNames) ["[Content_Types].xml", "word/document.xml"]
      (by decide) (by decide)).2.1 docxNames rfl).1.mpr (by decide)
  · exact ((spec_C4 sampleFS "fake.docx" "docx" zipHeader
      (.archive ["mimetype"]) ["[Content_Types].xml", "word/document.xml"]
      (by decide) (by decide)).2.1 ["mimetype"] rfl).2 (by decide)
  · exact (spec_C4 sampleFS "notzip.docx" "docx" samplePngContent
      .notZip ["[Content_Types].xml", "word/document.xml"]
      (by decide) (by decide)).1 rfl
  · exact (spec_C4 sampleFS "corrupt.docx" "docx" zipHeader
      .corrupt ["[Content_Types].xml", "word/document.xml"]
      (by decide) (by decide)).2.2.1 rfl

/-- A successful `add_signature` appends exactly the normalized row. -/
theorem add_signature_ok (db : DB) (e m : String) (o : Int)
    (d mt : Option String) (db2 : DB)
    (h : add_signature db e m o d mt = .ok db2) :
    db2 = db ++ [⟨normalize_extension e, normalize_magic_bytes m, o, d, mt⟩] ∧
    ∀ r ∈ db, ¬(r.extension = normalize_extension e ∧
      r.magic_bytes = normalize_magic_bytes m ∧ r.offset = o) := by
  unfold add_signature at h
  cases hv : validate_signature_input e m with
  | error err => rw [hv] at h; exact absurd h (by simp)
  | ok p =>
    obtain ⟨ne, nh⟩ := p
    have hp : ne = normalize_extension e ∧ nh = normalize_magic_bytes m := by
      unfold validate_signature_input at hv
      by_cases h1 : normalize_extension e = "" <;>
        simp only [h1, if_pos, if_neg, reduceIte] at hv
      · exact absurd hv (by simp)
      · by_cases h2 : normalize_magic_bytes m = "" <;>
          simp only [h2, reduceIte] at hv
        · exact absurd hv (by simp)
        · cases hbx : bytesFromHex (normalize_magic_bytes m) <;>
            rw [hbx] at hv
          · exact absurd hv (by simp)
          · have := (Except.ok.injEq _ _).mp hv
            exact ⟨(Prod.mk.injEq _ _ _ _).mp this.symm |>.1,
              (Prod.mk.injEq _ _ _ _).mp this.symm |>.2⟩
    obtain ⟨he1, he2⟩ := hp
    subst he1; subst he2
    rw [hv] at h
    dsimp only at h
    by_cases hd : db.any (fun r =>
        r.extension == normalize_extension e &&
        r.magic_bytes == normalize_magic_bytes m && r.offset == o)
    · rw [if_pos hd] at h; exact absurd h (by simp)
    · rw [if_neg hd] at h
      refine ⟨((Except.ok.injEq _ _).mp h).symm, fun r hr => ?_⟩
      intro hcon
      exact hd (List.any_eq_true.mpr ⟨r, hr, by
        simp [hcon.1, hcon.2.1, hcon.2.2]⟩)

/-- One `add_signature` call preserves the uniqueness invariant. -/
theorem applyCall_preserves_unique (db : DB) (c : AddCall)
    (hu : UniqueTriples db) : UniqueTriples (applyCall db c) := by
  unfold applyCall
  cases hc : add_signature db c.extension c.magic_bytes c.offset
      c.description c.mime_type with
  | error e => exact hu
  | ok db2 =>
    obtain ⟨hdb2, hcross⟩ := add_signature_ok db c.extension c.magic_bytes
      c.offset c.description c.mime_type db2 hc
    subst hdb2
    rw [UniqueTriples, List.pairwise_append]
    exact ⟨hu, by simp, fun a ha b hb => by
      simp only [List.mem_singleton] at hb
      subst hb
      exact hcross a ha⟩

/-- Claim C6: from an empty store, no sequence of `add_signature` calls
can produce two rows with the same normalized triple; and a call whose
normalized triple is already present raises `DuplicateSignature`
(`DatabaseError` from the `UNIQUE` constraint) and leaves the store
unchanged. -/
theorem spec_C6 :
    (∀ cs : List AddCall, UniqueTriples (runCalls [] cs)) ∧
    (∀ (db : DB) (e m ne nh : String) (o : Int) (d mt : Option String),
      validate_signature_input e m = .ok (ne, nh) →
      (∃ r ∈ db, r.extension = ne ∧ r.magic_bytes = nh ∧ r.offset = o) →
      add_signature db e m o d mt =
        .error (.databaseError (duplicateMsg ne nh o)) ∧
      applyCall db ⟨e, m, o, d, mt⟩ = db) := by
  constructor
  · intro cs
    have hgen : ∀ (cs : List AddCall) (db : DB), UniqueTriples db →
        UniqueTriples (runCalls db cs) := by
      intro cs
      induction cs with
      | nil => exact fun db h => h
      | cons c cs ih =>
        intro db h
        rw [runCalls, List.foldl_cons]
        exact ih (applyCall db c) (applyCall_preserves_unique db c h)
    exact hgen cs [] (by simp [UniqueTriples])
  · intro db e m ne nh o d mt hv ⟨r, hr, hre, hrm, hro⟩
    have hdup : db.any (fun r =>
        r.extension == ne && r.magic_bytes == nh && r.offset == o) = true :=
      List.any_eq_true.mpr ⟨r, hr, by simp [hre, hrm, hro]⟩
    have hadd : add_signature db e m o d mt =
        .error (.databaseError (duplicateMsg ne nh o)) := by
      unfold add_signature
      rw [hv]
      dsimp only
      rw [if_pos hdup]
    exact ⟨hadd, by unfold applyCall; rw [hadd]⟩

/-- Claim C6 witness: a sequence of three calls (the third a duplicate)
yields a store satisfying the invariant, and the duplicate call on a
store already holding the triple raises and leaves the store unchanged. -/
theorem spec_C6_witness :
    UniqueTriples (runCalls []
      [⟨"pdf", "25504446", 0, none, none⟩,
       ⟨"png", "89504E47", 0, none, none⟩,
       ⟨"pdf", "25504446", 0, none, none⟩]) ∧
    add_signature dbPdfPng "pdf" "25504446" 0 none none =
      .error (.databaseError (duplicateMsg "pdf" "25504446" 0)) ∧
    applyCall dbPdfPng ⟨"pdf", "25504446", 0, none, none⟩ = dbPdfPng := by
  have h2 := spec_C6.2 dbPdfPng "pdf" "25504446" "pdf" "25504446" 0 none
    none (by decide) ⟨⟨"pdf", "25504446", 0, none, none⟩, by decide,
      rfl, rfl, rfl⟩
  exact ⟨spec_C6.1 _, h2.1, h2.2⟩

/-- Claim C5: when every record for the extension fails the magic-byte
comparison, `validate` raises `ValidationError` whose message reports
the hex pattern of the last compared record and the upper-cased hex of
the (up to) 8 bytes read from the file at offset 0. -/
theorem spec_C5 (fs : FileSystem) (db : DB) (file_path : String)
    (content : List Nat) (zv : ZipView) (sigs : List (String × Int))
    (he : fs file_path = some (.regular content zv))
    (hs : content.length ≤ MAX_FILE_SIZE)
    (hx : fileExtension file_path ≠ "")
    (hsig : get_signatures db (fileExtension file_path) = .ok sigs)
    (hall : ∀ p ∈ sigs, check_signature fs file_path p.1 p.2 = .ok false) :
    validate fs db file_path =
      .error (.validationError
        (mismatchMsg file_path (fileExtension file_path)
          ((sigs.getLast?.map Prod.fst).getD "") (content.take 8))) := by
  have hv := validate_reaches_loop fs db file_path
    (.regular content zv) sigs he rfl hs hx hsig
  rw [hv, tryRecords_allFalse fs file_path (fileExtension file_path)
    (get_reader (fileExtension file_path)) sigs hall ""]
  simp [read_signature, he]

/-- Claim C5 witness: the spoofed-file scenario — `fake.pdf` begins with
PNG bytes, and the raised message mentions the expected `25504446` and
the actual PNG bytes. -/
theorem spec_C5_witness :
    validate sampleFS dbPdfPng "fake.pdf" =
      .error (.validationError
        ("File \x27fake.pdf\x27 has extension \x27.pdf\x27 but magic " ++
          "bytes don\x27t match. Expected: 25504446, Found: " ++
          "89504E470D0A1A0A")) := by
  have h := spec_C5 sampleFS dbPdfPng "fake.pdf" samplePngContent .notZip
    [("25504446", 0)] (by decide) (by decide) (by decide) (by decide)
    (by decide)
  rw [h]
  decide

/-- Claim C7: `add_signature` stores the normalized extension (lowercase,
leading dot stripped) and pattern (uppercase, spaces removed), making
`add_signature("PDF", "25 50 44 46")` and `add_signature("pdf",
"25504446")` the same registration, the second of which raises the
duplicate error. -/
theorem spec_C7 :
    (∀ (db : DB) (o : Int) (d mt : Option String),
      add_signature db "PDF" "25 50 44 46" o d mt =
        add_signature db "pdf" "25504446" o d mt) ∧
    (∀ (db : DB) (e m : String) (o : Int) (d mt : Option String) (db2 : DB),
      add_signature db e m o d mt = .ok db2 →
      db2 = db ++
        [⟨normalize_extension e, normalize_magic_bytes m, o, d, mt⟩]) ∧
    add_signature [] "PDF" "25 50 44 46" 0 none none =
      .ok [⟨"pdf", "25504446", 0, none, none⟩] ∧
    add_signature [⟨"pdf", "25504446", 0, none, none⟩] "pdf" "25504446" 0
        none none =
      .error (.databaseError (duplicateMsg "pdf" "25504446" 0)) := by
  refine ⟨fun db o d mt => ?_,
    fun db e m o d mt db2 h => (add_signature_ok db e m o d mt db2 h).1,
    by decide, by decide⟩
  have heq : validate_signature_input "PDF" "25 50 44 46" =
      validate_signature_input "pdf" "25504446" := by decide
  unfold add_signature
  rw [heq]

/-- Claim C7 witness: the two normalized-equivalent registrations agree
on the empty store, the stored row carries the normalized fields, and
the repeated registration raises the duplicate error. -/
theorem spec_C7_witness :
    add_signature [] "PDF" "25 50 44 46" 0 none none =
      add_signature [] "pdf" "25504446" 0 none none ∧
    ([⟨"pdf", "25504446", 0, none, none⟩] : DB) =
      [] ++ [⟨normalize_extension "PDF", normalize_magic_bytes "25 50 44 46",
        0, none, none⟩] ∧
    add_signature [⟨"pdf", "25504446", 0, none, none⟩] "pdf" "25504446" 0
        none none =
      .error (.databaseError (duplicateMsg "pdf" "25504446" 0)) :=
  ⟨spec_C7.1 [] 0 none none,
    spec_C7.2.1 [] "PDF" "25 50 44 46" 0 none none
      [⟨"pdf", "25504446", 0, none, none⟩] (by decide),
    spec_C7.2.2.2⟩

/-- The duplicate-insertion message always begins with `S`. -/
theorem duplicateMsg_head (ne nh : String) (o : Int) :
    (duplicateMsg ne nh o).data.head? = some 'S' := rfl

/-- The invalid-hex message always begins with `I`. -/
theorem invalidHexMsg_head (m : String) :
    ("Invalid hex string for magic bytes: \x27" ++ m ++
      "\x27").data.head? = some 'I' := rfl

/-- Claim C8: `add_signature` raises the invalid-input errors for an
empty normalized extension, an empty normalized pattern, and a
non-hexadecimal pattern, and the duplicate error for a present
normalized triple.  All four are raised as the store's `DatabaseError`
class (the spec's error taxonomy names kinds, not concrete type names),
and the caller can distinguish the duplicate condition from each
invalid-input condition: the carried messages always differ. -/
theorem spec_C8 :
    (∀ (db : DB) (e m : String) (o : Int) (d mt : Option String),
      normalize_extension e = "" →
      add_signature db e m o d mt =
        .error (.databaseError "Extension cannot be empty")) ∧
    (∀ (db : DB) (e m : String) (o : Int) (d mt : Option String),
      normalize_extension e ≠ "" → normalize_magic_bytes m = "" →
      add_signature db e m o d mt =
        .error (.databaseError "Magic bytes cannot be empty")) ∧
    (∀ (db : DB) (e m : String) (o : Int) (d mt : Option String),
      normalize_extension e ≠ "" → normalize_magic_bytes m ≠ "" →
      bytesFromHex (normalize_magic_bytes m) = none →
      add_signature db e m o d mt =
        .error (.databaseError
          ("Invalid hex string for magic bytes: \x27" ++ m ++ "\x27"))) ∧
    (∀ (db : DB) (e m ne nh : String) (o : Int) (d mt : Option String),
      validate_signature_input e m = .ok (ne, nh) →
      (∃ r ∈ db, r.extension = ne ∧ r.magic_bytes = nh ∧ r.offset = o) →
      add_signature db e m o d mt =
        .error (.databaseError (duplicateMsg ne nh o))) ∧
    (∀ (ne nh : String) (o : Int) (m : String),
      duplicateMsg ne nh o ≠ "Extension cannot be empty" ∧
      duplicateMsg ne nh o ≠ "Magic bytes cannot be empty" ∧
      duplicateMsg ne nh o ≠
        "Invalid hex string for magic bytes: \x27" ++ m ++ "\x27") := by
  refine ⟨fun db e m o d mt h1 => ?_, fun db e m o d mt h1 h2 => ?_,
    fun db e m o d mt h1 h2 h3 => ?_,
    fun db e m ne nh o d mt hv hex => ?_,
    fun ne nh o m => ⟨fun h => ?_, fun h => ?_, fun h => ?_⟩⟩
  · unfold add_signature validate_signature_input
    rw [if_pos h1]
  · unfold add_signature validate_signature_input
    rw [if_neg h1, if_pos h2]
  · unfold add_signature validate_signature_input
    rw [if_neg h1, if_neg h2, h3]
  · obtain ⟨r, hr, hre, hrm, hro⟩ := hex
    unfold add_signature
    rw [hv]
    dsimp only
    rw [if_pos (List.any_eq_true.mpr ⟨r, hr, by simp [hre, hrm, hro]⟩)]
  · have h2 := congrArg (fun s => s.data.head?) h
    dsimp only at h2
    rw [duplicateMsg_head] at h2
    exact absurd h2 (by decide)
  · have h2 := congrArg (fun s => s.data.head?) h
    dsimp only at h2
    rw [duplicateMsg_head] at h2
    exact absurd h2 (by decide)
  · have h2 := congrArg (fun s => s.data.head?) h
    dsimp only at h2
    rw [duplicateMsg_head, invalidHexMsg_head] at h2
    exact absurd h2 (by decide)

/-- Claim C8 witness: the three invalid-input failures, the duplicate
failure, and the distinguishability of the duplicate message from each
invalid-input message, on concrete inputs. -/
theorem spec_C8_witness :
    add_signature [] "" "25504446" 0 none none =
      .error (.databaseError "Extension cannot be empty") ∧
    add_signature [] "pdf" "   " 0 none none =
      .error (.databaseError "Magic bytes cannot be empty") ∧
    add_signature [] "pdf" "25504G" 0 none none =
      .error (.databaseError
        ("Invalid hex string for magic bytes: \x2725504G\x27")) ∧
    add_signature dbPdfPng "pdf" "25504446" 0 none none =
      .error (.databaseError (duplicateMsg "pdf" "25504446" 0)) ∧
    duplicateMsg "pdf" "25504446" 0 ≠ "Extension cannot be empty" ∧
    duplicateMsg "pdf" "25504446" 0 ≠
      "Invalid hex string for magic bytes: \x2725504G\x27" := by
  have h5 := spec_C8.2.2.2.2 "pdf" "25504446" 0 "25504G"
  refine ⟨spec_C8.1 [] "" "25504446" 0 none none (by decide),
    spec_C8.2.1 [] "pdf" "   " 0 none none (by decide) (by decide),
    ?_, spec_C8.2.2.2.1 dbPdfPng "pdf" "25504446" "pdf" "25504446" 0 none
      none (by decide) ⟨⟨"pdf", "25504446", 0, none, none⟩, by decide,
        rfl, rfl, rfl⟩,
    h5.1, ?_⟩
  · exact spec_C8.2.2.1 [] "pdf" "25504G" 0 none none (by decide)
      (by decide) (by decide)
  · exact h5.2.2

set_option maxRecDepth 100000 in
/-- The implementation meets the FIPS 180-4 test vector for the empty
message. -/
theorem sha256hex_empty :
    sha256hex [] =
      "e3b0c44298fc1c149afbf4c8996fb92427ae41e4649b934ca495991b7852b855" := by
  decide

set_option maxRecDepth 100000 in
/-- The implementation meets the FIPS 180-4 test vector for the message
`abc`. -/
theorem sha256hex_abc :
    sha256hex [97, 98, 99] =
      "ba7816bf8f01cfea414140de5dae2223b00361a396177a9cb410ff61f20015ad" := by
  decide

/-- Chunking concatenates back to the original list, for every fuel. -/
theorem chunksAux_flatten (sz : Nat) (fuel : Nat) :
    ∀ c : List Nat, (chunksAux sz fuel c).flatten = c := by
  induction fuel with
  | zero =>
    intro c
    cases c with
    | nil => rfl
    | cons b bs => simp [chunksAux]
  | succ fuel ih =>
    intro c
    cases c with
    | nil => rfl
    | cons b bs =>
      show ((b :: bs).take sz :: chunksAux sz fuel ((b :: bs).drop sz)).flatten =
        b :: bs
      rw [List.flatten_cons, ih ((b :: bs).drop sz)]
      exact List.take_append_drop sz (b :: bs)

/-- The 8192-byte read chunks concatenate back to the whole content. -/
theorem readChunks_flatten (c : List Nat) : (readChunks c).flatten = c :=
  chunksAux_flatten 8192 c.length c

/-- The digest is always 32 bytes. -/
theorem sha256bytes_length (m : List Nat) : (sha256bytes m).length = 32 := by
  simp [sha256bytes, wordBE]

/-- Hex rendering doubles the byte count. -/
theorem flatMap_byteHexLower_length (bs : List Nat) :
    (bs.flatMap byteHexLower).length = 2 * bs.length := by
  induction bs with
  | nil => rfl
  | cons b bs ih =>
    simp only [List.flatMap_cons, List.length_append, ih, byteHexLower,
      List.length_cons, List.length_nil, List.length_cons]
    ring

/-- The hex digest string always has 64 characters. -/
theorem sha256hex_length (m : List Nat) : (sha256hex m).length = 64 := by
  have : (sha256hex m).data = (sha256bytes m).flatMap byteHexLower := rfl
  rw [String.length, this, flatMap_byteHexLower_length, sha256bytes_length]

/-- Claim C9: `get_file_hash` returns a 64-character hex digest, equal to
the SHA-256 digest of the file's full contents (the 8 KiB streaming
chunks concatenate to the whole file), determined by the content alone
(hence identical across repeated calls on an unmodified file), and
raises `FileReadError` whenever the file cannot be opened and read. -/
theorem spec_C9 :
    (∀ (fs : FileSystem) (p hash : String),
      get_file_hash fs p = .ok hash → hash.length = 64) ∧
    (∀ (fs : FileSystem) (p : String) (content : List Nat) (zv : ZipView),
      fs p = some (.regular content zv) →
      get_file_hash fs p = .ok (sha256hex content)) ∧
    (∀ (fs1 fs2 : FileSystem) (p1 p2 : String) (content : List Nat)
      (z1 z2 : ZipView), fs1 p1 = some (.regular content z1) →
      fs2 p2 = some (.regular content z2) →
      get_file_hash fs1 p1 = get_file_hash fs2 p2) ∧
    (∀ (fs : FileSystem) (p : String),
      (∀ (content : List Nat) (zv : ZipView),
        fs p ≠ some (.regular content zv)) →
      get_file_hash fs p = .error (.fileReadError
        ("Failed to hash file \x27" ++ p ++ "\x27: " ++ osErrorDetail))) := by
  have hok : ∀ (fs : FileSystem) (p : String) (content : List Nat)
      (zv : ZipView), fs p = some (.regular content zv) →
      get_file_hash fs p = .ok (sha256hex content) := by
    intro fs p content zv he
    unfold get_file_hash
    rw [he]
    dsimp only
    unfold sha256StreamHex
    rw [readChunks_flatten]
  refine ⟨fun fs p hash hh => ?_, hok,
    fun fs1 fs2 p1 p2 content z1 z2 h1 h2 => by
      rw [hok fs1 p1 content z1 h1, hok fs2 p2 content z2 h2],
    fun fs p hne => ?_⟩
  · unfold get_file_hash at hh
    cases hfs : fs p with
    | none => rw [hfs] at hh; exact absurd hh (by simp)
    | some entry =>
      cases entry with
      | regular content zv =>
        rw [hfs] at hh
        have : hash = sha256StreamHex (readChunks content) :=
          ((Except.ok.injEq _ _).mp hh).symm
        rw [this]
        unfold sha256StreamHex
        rw [readChunks_flatten]
        exact sha256hex_length content
      | directory => rw [hfs] at hh; exact absurd hh (by simp)
      | unreadable sz => rw [hfs] at hh; exact absurd hh (by simp)
  · unfold get_file_hash
    cases hfs : fs p with
    | none => rfl
    | some entry =>
      cases entry with
      | regular content zv => exact absurd hfs (hne content zv)
      | directory => rfl
      | unreadable sz => rfl

/-- Claim C9 witness: a concrete file hashes to the digest of its full
content, that digest has 64 characters, and a missing file and an
unreadable file raise `FileReadError`. -/
theorem spec_C9_witness :
    get_file_hash sampleFS "a.pdf" = .ok (sha256hex samplePdfContent) ∧
    (sha256hex samplePdfContent).length = 64 ∧
    get_file_hash sampleFS "nosuch.bin" = .error (.fileReadError
      ("Failed to hash file \x27nosuch.bin\x27: " ++ osErrorDetail)) ∧
    get_file_hash sampleFS "locked.pdf" = .error (.fileReadError
      ("Failed to hash file \x27locked.pdf\x27: " ++ osErrorDetail)) := by
  have h1 := spec_C9.2.1 sampleFS "a.pdf" samplePdfContent .notZip
    (by decide)
  refine ⟨h1, spec_C9.1 sampleFS "a.pdf" (sha256hex samplePdfContent) h1,
    spec_C9.2.2.2 sampleFS "nosuch.bin" ?_,
    spec_C9.2.2.2 sampleFS "locked.pdf" ?_⟩
  · intro content zv hcon
    rw [show sampleFS "nosuch.bin" = none from by decide] at hcon
    exact absurd hcon (by simp)
  · intro content zv hcon
    rw [show sampleFS "locked.pdf" = some (.unreadable 20) from by decide]
      at hcon
    exact absurd hcon (by simp)

end MagicGuard
